import Mathlib

/-!
Verification development for the RelativeTimestamps plugin
(src/RelativeTimestamps.plugin.js).

The plugin annotates `<time>` elements of a chat client with live
"time ago" labels.  We embed the relevant parts of the program
shallowly:

* times are integers (milliseconds since the epoch), as a JS `Date`
  holds an integer millisecond value for every valid instant;
* the DOM is modelled as a flat list of elements (the plugin only ever
  reads an element, its next sibling, and flat `querySelectorAll`
  result sets, so sibling-list structure is all the claims need);
* `new Date(string)` parsing, `toISOString` and `toLocaleString` are
  host functions and are passed in as an explicit environment
  (`DateEnv`); a parse result of `none` models an Invalid Date;
* settings are the record of the three booleans the plugin recognises.
-/

namespace RelTs

/-- The three persisted plugin options (`this.defaultSettings` keys). -/
structure Settings where
  detailed : Bool
  liveUpdate : Bool
  showTooltip : Bool
deriving DecidableEq, Repr

/-- `this.defaultSettings = { detailed: true, liveUpdate: true, showTooltip: true }`. -/
def defaultSettings : Settings := { detailed := true, liveUpdate := true, showTooltip := true }

/-! ## DurationFormatter: the `format` method -/

/-- `Math.floor((now - date) / 1000)` followed by the `if (diff < 0) diff = 0;`
clamp, from the head of `format`.  Arguments are in milliseconds;
`Int.fdiv` is `Math.floor` of the exact quotient. -/
def elapsedSecs (dateMs nowMs : Int) : Nat :=
  let diff0 : Int := (nowMs - dateMs).fdiv 1000
  (if diff0 < 0 then 0 else diff0).toNat

/-- The body of `format` after the clamp: greedy fixed-divisor
decomposition of `diff` (seconds) and rendering in the detailed or the
compact style, exactly as in `format` (src lines 479-502). -/
def formatElapsed (detailed : Bool) (diff : Nat) : String :=
  let years := diff / 31536000
  let d1 := diff % 31536000
  let months := d1 / 2592000
  let d2 := d1 % 2592000
  let days := d2 / 86400
  let d3 := d2 % 86400
  let hours := d3 / 3600
  let d4 := d3 % 3600
  let minutes := d4 / 60
  let seconds := d4 % 60
  if detailed then
    let parts : List String :=
      (if years ≠ 0 then [toString years ++ " year" ++ (if years ≠ 1 then "s" else "")] else []) ++
      (if months ≠ 0 then [toString months ++ " month" ++ (if months ≠ 1 then "s" else "")] else []) ++
      (if days ≠ 0 then [toString days ++ " day" ++ (if days ≠ 1 then "s" else "")] else []) ++
      (if hours ≠ 0 then [toString hours ++ " hour" ++ (if hours ≠ 1 then "s" else "")] else []) ++
      (if minutes ≠ 0 then [toString minutes ++ " minute" ++ (if minutes ≠ 1 then "s" else "")] else [])
    let parts' :=
      if seconds ≠ 0 ∨ parts = [] then
        parts ++ [toString seconds ++ " second" ++ (if seconds ≠ 1 then "s" else "")]
      else parts
    String.intercalate " " parts' ++ " ago"
  else
    if years ≠ 0 then toString years ++ "y ago"
    else if months ≠ 0 then toString months ++ "mo ago"
    else if days ≠ 0 then toString days ++ "d ago"
    else if hours ≠ 0 then toString hours ++ "h ago"
    else if minutes ≠ 0 then toString minutes ++ "m ago"
    else toString seconds ++ "s ago"

/-- `format(date, now = new Date())` (src lines 475-503).  The style flag
is `this.settings.detailed`. -/
def format (s : Settings) (dateMs nowMs : Int) : String :=
  formatElapsed s.detailed (elapsedSecs dateMs nowMs)

/-! ### Spec-side renderings (for the refinement claims C1 and C2)

These definitions follow the SPEC's words, to be compared with
`format` above: "years (31,536,000 s), months (2,592,000 s), days
(86,400 s), hours (3,600 s), minutes (60 s), seconds (remainder) —
each division floors and carries the remainder to the next unit". -/

/-- Modelled from the spec: the six units of the greedy fixed-divisor
decomposition of an elapsed-seconds value, in descending order, each
paired with its singular unit name.  The remainder of each floored
division is carried to the next unit; the remainder of a floored
division by `d` is `% d`. -/
def specUnitList (e : Nat) : List (Nat × String) :=
  [(e / 31536000, "year"),
   (e % 31536000 / 2592000, "month"),
   (e % 31536000 % 2592000 / 86400, "day"),
   (e % 31536000 % 2592000 % 86400 / 3600, "hour"),
   (e % 31536000 % 2592000 % 86400 % 3600 / 60, "minute"),
   (e % 31536000 % 2592000 % 86400 % 3600 % 60, "second")]

/-- Modelled from the spec: keep every unit whose value is non-zero,
preserving descending order. -/
def nonZeroUnits : List (Nat × String) → List (Nat × String)
  | [] => []
  | p :: rest => if p.1 ≠ 0 then p :: nonZeroUnits rest else nonZeroUnits rest

/-- Modelled from the spec: the first (largest) non-zero unit, if any. -/
def firstNonZero : List (Nat × String) → Option (Nat × String)
  | [] => none
  | p :: rest => if p.1 ≠ 0 then some p else firstNonZero rest

/-- Modelled from the spec: render one unit as `"<n> <unit>"` with
plural suffix `"s"` iff `n ≠ 1`. -/
def specRenderUnit (p : Nat × String) : String :=
  toString p.1 ++ " " ++ p.2 ++ (if p.1 ≠ 1 then "s" else "")

/-- Modelled from the spec: detailed style — every non-zero unit in
descending order joined by single spaces, `" ago"` appended; if every
unit is zero, force-include the seconds unit. -/
def detailedSpec (e : Nat) : String :=
  let nz := nonZeroUnits (specUnitList e)
  let parts :=
    if nz = [] then [specRenderUnit (e % 31536000 % 2592000 % 86400 % 3600 % 60, "second")]
    else nz.map specRenderUnit
  String.intercalate " " parts ++ " ago"

/-- Modelled from the spec: the five super-second units with their
compact abbreviations, descending. -/
def specCompactList (e : Nat) : List (Nat × String) :=
  [(e / 31536000, "y"),
   (e % 31536000 / 2592000, "mo"),
   (e % 31536000 % 2592000 / 86400, "d"),
   (e % 31536000 % 2592000 % 86400 / 3600, "h"),
   (e % 31536000 % 2592000 % 86400 % 3600 / 60, "m")]

/-- Modelled from the spec: compact style — only the single largest
non-zero unit, abbreviated, followed by `" ago"`; if all are zero,
the seconds form. -/
def compactSpec (e : Nat) : String :=
  match firstNonZero (specCompactList e) with
  | some p => toString p.1 ++ p.2 ++ " ago"
  | none => toString (e % 31536000 % 2592000 % 86400 % 3600 % 60) ++ "s" ++ " ago"

/-! ## DOM model

The plugin touches the DOM only through an element, its next sibling,
flat `querySelectorAll` result sets and an appended `<style>` node, so
a flat sibling list is an adequate shallow embedding of the document. -/

/-- `this.injectedClass`. -/
def injectedClass : String := "bd-rel-ts"

/-- `this.markerAttr`. -/
def markerAttr : String := "data-rel-ready"

/-- `this.styleId`. -/
def styleId : String := "bd-rel-ts-style"

/-- The `span.dataset.timestamp` slot; `dataset.timestamp` is the
`data-timestamp` attribute. -/
def tsAttr : String := "data-timestamp"

/-- A DOM element: tag name, attribute list (first binding wins, as
`getAttribute` sees one value per name), class list, text content. -/
structure Elem where
  tag : String
  attrs : List (String × String)
  classes : List String
  text : String
deriving DecidableEq, Repr

/-- First binding of `k` in an attribute list. -/
def lookupAttr : List (String × String) → String → Option String
  | [], _ => none
  | (k', v) :: rest, k => if k' = k then some v else lookupAttr rest k

/-- `el.getAttribute(k)`: `none` models `null`. -/
def getAttr (el : Elem) (k : String) : Option String := lookupAttr el.attrs k

/-- `el.hasAttribute(k)`. -/
def hasAttr (el : Elem) (k : String) : Bool := (getAttr el k).isSome

/-- Replace the binding of `k` in place, or append it (the semantics of
`setAttribute` over an attribute map). -/
def setPair : List (String × String) → String → String → List (String × String)
  | [], k, v => [(k, v)]
  | (k', v') :: rest, k, v =>
    if k' = k then (k, v) :: rest else (k', v') :: setPair rest k v

/-- `el.setAttribute(k, v)` (also models `dataset` and `title` writes). -/
def setAttr (el : Elem) (k v : String) : Elem := { el with attrs := setPair el.attrs k v }

/-- Drop every binding of `k` (attribute maps bind a name once). -/
def removeKey : List (String × String) → String → List (String × String)
  | [], _ => []
  | (k', v) :: rest, k =>
    if k' = k then removeKey rest k else (k', v) :: removeKey rest k

/-- `el.removeAttribute(k)`. -/
def removeAttr (el : Elem) (k : String) : Elem :=
  { el with attrs := removeKey el.attrs k }

/-- Host date functions: `new Date(string)` (where `none` models an
Invalid Date, i.e. `Number.isNaN(date.getTime())`), `toISOString`, and
`toLocaleString`.  Instants are integer epoch milliseconds. -/
structure DateEnv where
  parse : String → Option Int
  toISO : Int → String
  toLocale : Int → String

/-- JS `a || b` on nullable strings: `a` unless `a` is null or `""`. -/
def jsOrElse (a b : Option String) : Option String :=
  match a with
  | some s => if s = "" then b else some s
  | none => b

/-- Lines 429-430 of `attach`: `timeEl.getAttribute("datetime") ||
timeEl.getAttribute("title")` followed by the `if (!dt) return` truthiness
guard; `none` means the guard aborts. -/
def extractInstant (el : Elem) : Option String :=
  match jsOrElse (getAttr el "datetime") (getAttr el "title") with
  | some s => if s = "" then none else some s
  | none => none

/-- What one `attach` call does to the source element and its next
sibling: nothing, an in-place update of an existing chip, or an
insertion of a fresh chip right after the source. -/
inductive AttachEffect where
  | noop
  | updated (src' chip' : Elem)
  | inserted (src' chip : Elem)
deriving DecidableEq, Repr

/-- The fresh `span` built in the create branch of `attach` (lines
446-450): class, stored instant, rendered text, optional tooltip. -/
def mkSpan (env : DateEnv) (s : Settings) (now : Int) (date : Int) : Elem :=
  let sp : Elem :=
    { tag := "span",
      attrs := [(tsAttr, env.toISO date)],
      classes := [injectedClass],
      text := format s date now }
  if s.showTooltip then setAttr sp "title" (env.toLocale date) else sp

/-- The update branch of `attach` (lines 437-441): overwrite the stored
instant, text, and tooltip of the chip that already follows the source. -/
def updateChip (env : DateEnv) (s : Settings) (now : Int) (date : Int) (next : Elem) : Elem :=
  let n1 := setAttr next tsAttr (env.toISO date)
  let n2 := { n1 with text := format s date now }
  if s.showTooltip then setAttr n2 "title" (env.toLocale date)
  else removeAttr n2 "title"

/-- `attach(timeEl)` (lines 421-460) as a function of the source and
its next sibling.  The `instanceof Element` guard is vacuous here since
every modelled node is an element. -/
def attachCore (env : DateEnv) (s : Settings) (now : Int)
    (src : Elem) (next? : Option Elem) : AttachEffect :=
  if hasAttr src markerAttr then .noop
  else match extractInstant src with
  | none => .noop
  | some dt =>
    match env.parse dt with
    | none => .noop
    | some date =>
      match next? with
      | some next =>
        if next.classes.contains injectedClass then
          .updated (setAttr src markerAttr "true") (updateChip env s now date next)
        else .inserted (setAttr src markerAttr "true") (mkSpan env s now date)
      | none => .inserted (setAttr src markerAttr "true") (mkSpan env s now date)

/-- Insert `a` so that it ends up at position `n` of the sibling list
(`timeEl.after(span)` with `n = i + 1`). -/
def insertAt (l : List Elem) (n : Nat) (a : Elem) : List Elem :=
  l.take n ++ a :: l.drop n

/-- `attach` applied to the element at position `i` of the document. -/
def attach (env : DateEnv) (s : Settings) (now : Int) (d : List Elem) (i : Nat) : List Elem :=
  match d[i]? with
  | none => d
  | some src =>
    match attachCore env s now src d[i + 1]? with
    | .noop => d
    | .updated src' chip' => (d.set i src').set (i + 1) chip'
    | .inserted src' chip => insertAt (d.set i src') (i + 1) chip

/-- Number of annotation chips in a document. -/
def labelCount (d : List Elem) : Nat :=
  d.countP fun e => e.classes.contains injectedClass

/-! ## RefreshScheduler: `refreshAll` -/

/-- What `format` renders when its date is an Invalid Date (`NaN`
propagates through the divisions, every unit is falsy, and the forced
seconds unit prints `NaN` with the plural suffix since `NaN !== 1`). -/
def nanRender (detailed : Bool) : String :=
  if detailed then "NaN seconds ago" else "NaNs ago"

/-- The per-chip body of `refreshAll` (lines 465-469): skip elements
without the injected class or with a missing/empty stored timestamp,
otherwise re-render the text from the stored instant and `now`. -/
def refreshChip (env : DateEnv) (s : Settings) (now : Int) (el : Elem) : Elem :=
  if el.classes.contains injectedClass then
    match getAttr el tsAttr with
    | none => el
    | some ts =>
      if ts = "" then el
      else
        match env.parse ts with
        | some date => { el with text := format s date now }
        | none => { el with text := nanRender s.detailed }
  else el

/-- `refreshAll()` (lines 462-473): re-render every chip in the
document from its own stored instant. -/
def refreshAll (env : DateEnv) (s : Settings) (now : Int) (d : List Elem) : List Elem :=
  d.map (refreshChip env s now)

/-! ## Lifecycle: `injectCSS`, `observe`, `processAll`, `startTimer`, `start`, `stop` -/

/-- Plugin-visible system state: the document, the settings object, the
observer and timer handles (as activity bits), and the toast log (most
recent first). -/
structure SysState where
  doc : List Elem
  settings : Settings
  observerActive : Bool
  timerActive : Bool
  toasts : List (String × String)
deriving DecidableEq, Repr

/-- The `<style>` element `injectCSS` appends.  Its CSS text is
irrelevant to every claim and abbreviated here. -/
def styleElem : Elem :=
  { tag := "style", attrs := [("id", styleId)], classes := [],
    text := "timestamp chip and settings panel styling" }

/-- `injectCSS()` (lines 246-376): append the style element unless an
element with its id already exists. -/
def injectCSS (doc : List Elem) : List Elem :=
  if doc.any fun e => getAttr e "id" = some styleId then doc
  else doc ++ [styleElem]

/-- `document.getElementById(id)?.remove()`: drop the first element
carrying the id, if any. -/
def removeFirstWithId : List Elem → String → List Elem
  | [], _ => []
  | e :: rest, i =>
    if getAttr e "id" = some i then rest else e :: removeFirstWithId rest i

def enabledToast : String × String := ("RelativeTimestamps: enabled", "success")
def disabledToast : String × String := ("RelativeTimestamps: disabled", "info")
def failedToast : String × String :=
  ("RelativeTimestamps: failed to start (check console)", "error")

/-- `processAll()` (lines 412-419): `document.querySelectorAll("time")
.forEach(t => this.attach(t))`.  The snapshot contains the `time`
elements present at call time; `attach` only ever modifies the current
element, its next sibling, or inserts a non-`time` span after it, so a
left-to-right pass is the forEach order. -/
def processAll (env : DateEnv) (s : Settings) (now : Int) : List Elem → List Elem
  | [] => []
  | [e] =>
    if e.tag = "time" then
      match attachCore env s now e none with
      | .noop => [e]
      | .updated e' _ => [e']
      | .inserted e' chip => [e', chip]
    else [e]
  | e :: f :: rest =>
    if e.tag = "time" then
      match attachCore env s now e (some f) with
      | .noop => e :: processAll env s now (f :: rest)
      | .updated e' f' => e' :: processAll env s now (f' :: rest)
      | .inserted e' chip => e' :: chip :: processAll env s now (f :: rest)
    else e :: processAll env s now (f :: rest)
termination_by l => l.length

/-- Which host calls inside `start()`'s `try` block throw.  `observe`,
`processAll` and `toast` catch their own exceptions internally (lines
384-410, 412-419, 64-76), so only `injectCSS` (DOM calls, lines
246-376) and `startTimer`'s `setInterval` (line 380) can reach
`start()`'s `catch`. -/
structure StartFaults where
  injectThrows : Bool
  setIntervalThrows : Bool
deriving DecidableEq, Repr

/-- `start()` (lines 202-215) under a fault assignment.  On a throw the
`catch` shows the failure toast and performs no teardown.  A
`setInterval` throw happens after `startTimer`'s `clearInterval`, so
the timer is inactive in that case. -/
def start (f : StartFaults) (env : DateEnv) (now : Int) (st : SysState) : SysState :=
  if f.injectThrows then
    { st with toasts := failedToast :: st.toasts }
  else
    let st1 := { st with doc := injectCSS st.doc }
    let st2 := { st1 with observerActive := true }
    let st3 := { st2 with doc := processAll env st2.settings now st2.doc }
    if st3.settings.liveUpdate then
      if f.setIntervalThrows then
        { st3 with timerActive := false, toasts := failedToast :: st3.toasts }
      else
        { st3 with timerActive := true, toasts := enabledToast :: st3.toasts }
    else { st3 with toasts := enabledToast :: st3.toasts }

/-- Whether `start()`'s `catch` branch runs under fault assignment `f`
(the timer is only started when `liveUpdate` is on). -/
def startFails (f : StartFaults) (s : Settings) : Prop :=
  f.injectThrows = true ∨ (s.liveUpdate = true ∧ f.setIntervalThrows = true)

/-- `stop()` (lines 217-241): disconnect, cancel, remove chips, strip
markers from `time` elements, remove the stylesheet, toast. -/
def stop (st : SysState) : SysState :=
  let doc1 := st.doc.filter fun e => !(e.classes.contains injectedClass)
  let doc2 := doc1.map fun e =>
    if e.tag = "time" ∧ hasAttr e markerAttr then removeAttr e markerAttr else e
  let doc3 := removeFirstWithId doc2 styleId
  { doc := doc3, settings := st.settings, observerActive := false,
    timerActive := false, toasts := disabledToast :: st.toasts }

/-! ## SettingsStore: `_loadSettings` / `_saveSettings` -/

/-- The values a persisted settings blob can hold (a JSON-like datum as
returned by the persistence backend, `undefined` being `Option.none`
one level up). -/
inductive JValue where
  | null
  | bool (b : Bool)
  | num (n : Int)
  | str (s : String)
  | arr (elems : List JValue)
  | obj (fields : List (String × JValue))

/-- `this.defaultSettings` as a JS object. -/
def defaultsObj : List (String × JValue) :=
  [("detailed", .bool true), ("liveUpdate", .bool true), ("showTooltip", .bool true)]

/-- A well-formed `Settings` value as the JS object `_saveSettings`
hands to the backend. -/
def settingsObj (s : Settings) : List (String × JValue) :=
  [("detailed", .bool s.detailed), ("liveUpdate", .bool s.liveUpdate),
   ("showTooltip", .bool s.showTooltip)]

/-- `Object.assign({}, base, extra)`: base bindings overridden by
`extra`, then the keys only `extra` has, in order. -/
def objAssign (base extra : List (String × JValue)) : List (String × JValue) :=
  (base.map fun p => (p.1, (extra.lookup p.1).getD p.2))
    ++ extra.filter fun p => (base.lookup p.1).isNone

/-- Whether a loaded datum passes the `_loadSettings` guard
`loaded && typeof loaded === "object" && !Array.isArray(loaded)`. -/
def isPlainObj : JValue → Bool
  | .obj _ => true
  | _ => false

/-- `_loadSettings` (lines 176-186) applied to what `_dataLoad`
returned: a non-object (or missing) datum is replaced by `{}`, then
merged over the defaults; no case throws. -/
def loadSettingsObj (loaded : Option JValue) : List (String × JValue) :=
  let safeObj : List (String × JValue) :=
    match loaded with
    | some (.obj fields) => fields
    | _ => []
  objAssign defaultsObj safeObj

/-- The backend slot contents right after `_saveSettings(s)`: every
backend candidate (`Data.save`, `saveData`, `localStorage` with
`JSON.stringify`/`JSON.parse`) stores the settings object verbatim. -/
def persistedAfterSave (s : Settings) : Option JValue := some (.obj (settingsObj s))

/-! ### Attribute map lemmas -/

theorem lookupAttr_setPair_self (l : List (String × String)) (k v : String) :
    lookupAttr (setPair l k v) k = some v := by
  induction l with
  | nil => simp [setPair, lookupAttr]
  | cons p rest ih =>
    obtain ⟨k', v'⟩ := p
    by_cases h : k' = k
    · simp [setPair, h, lookupAttr]
    · simp [setPair, h, lookupAttr, ih]

theorem lookupAttr_setPair_ne (l : List (String × String)) (k v k' : String) (h : k ≠ k') :
    lookupAttr (setPair l k v) k' = lookupAttr l k' := by
  induction l with
  | nil => simp [setPair, lookupAttr, h]
  | cons p rest ih =>
    obtain ⟨a, b⟩ := p
    by_cases ha : a = k
    · subst ha
      simp [setPair, lookupAttr, h]
    · simp only [setPair, if_neg ha, lookupAttr]
      by_cases hk : a = k'
      · simp [hk]
      · simp [hk, ih]

theorem getAttr_setAttr_self (el : Elem) (k v : String) :
    getAttr (setAttr el k v) k = some v :=
  lookupAttr_setPair_self el.attrs k v

theorem getAttr_setAttr_ne (el : Elem) (k v k' : String) (h : k ≠ k') :
    getAttr (setAttr el k v) k' = getAttr el k' :=
  lookupAttr_setPair_ne el.attrs k v k' h

theorem getAttr_removeAttr_self (el : Elem) (k : String) :
    getAttr (removeAttr el k) k = none := by
  show lookupAttr (removeKey el.attrs k) k = none
  induction el.attrs with
  | nil => simp [removeKey, lookupAttr]
  | cons p rest ih =>
    obtain ⟨a, b⟩ := p
    by_cases ha : a = k
    · simp [removeKey, ha, ih]
    · simp [removeKey, ha, lookupAttr, ih]

theorem getAttr_removeAttr_ne (el : Elem) (k k' : String) (h : k ≠ k') :
    getAttr (removeAttr el k) k' = getAttr el k' := by
  show lookupAttr (removeKey el.attrs k) k' = lookupAttr el.attrs k'
  induction el.attrs with
  | nil => simp [removeKey]
  | cons p rest ih =>
    obtain ⟨a, b⟩ := p
    by_cases ha : a = k
    · subst ha
      simp [removeKey, lookupAttr, h, ih]
    · by_cases hk : a = k'
      · simp [removeKey, ha, lookupAttr, hk, Ne.symm h]
      · simp [removeKey, ha, lookupAttr, hk, ih]

theorem hasAttr_setAttr_self (el : Elem) (k v : String) :
    hasAttr (setAttr el k v) k = true := by
  simp [hasAttr, getAttr_setAttr_self]

theorem classes_setAttr (el : Elem) (k v : String) : (setAttr el k v).classes = el.classes := rfl

theorem classes_removeAttr (el : Elem) (k : String) : (removeAttr el k).classes = el.classes := rfl

theorem tag_setAttr (el : Elem) (k v : String) : (setAttr el k v).tag = el.tag := rfl

theorem tag_removeAttr (el : Elem) (k : String) : (removeAttr el k).tag = el.tag := rfl

theorem text_setAttr (el : Elem) (k v : String) : (setAttr el k v).text = el.text := rfl

theorem text_removeAttr (el : Elem) (k : String) : (removeAttr el k).text = el.text := rfl

/-! ### String-literal bridging lemmas -/

theorem year_str (n : Nat) : toString n ++ " " ++ "year" = toString n ++ " year" := by
  rw [String.append_assoc]; rfl

theorem month_str (n : Nat) : toString n ++ " " ++ "month" = toString n ++ " month" := by
  rw [String.append_assoc]; rfl

theorem day_str (n : Nat) : toString n ++ " " ++ "day" = toString n ++ " day" := by
  rw [String.append_assoc]; rfl

theorem hour_str (n : Nat) : toString n ++ " " ++ "hour" = toString n ++ " hour" := by
  rw [String.append_assoc]; rfl

theorem minute_str (n : Nat) : toString n ++ " " ++ "minute" = toString n ++ " minute" := by
  rw [String.append_assoc]; rfl

theorem second_str (n : Nat) : toString n ++ " " ++ "second" = toString n ++ " second" := by
  rw [String.append_assoc]; rfl

theorem abbrev_str (n : Nat) (u v : String) (h : u ++ " ago" = v) :
    toString n ++ u ++ " ago" = toString n ++ v := by
  rw [String.append_assoc, h]

/-! ### The formatter refines the spec renderings -/

/-- Detailed style of the code's formatter coincides with the spec's
rendering for every elapsed-seconds value. -/
theorem formatElapsed_detailed_eq (e : Nat) : formatElapsed true e = detailedSpec e := by
  simp only [formatElapsed, detailedSpec, specUnitList, nonZeroUnits, specRenderUnit]
  by_cases h1 : e / 31536000 = 0 <;>
  by_cases h2 : e % 31536000 / 2592000 = 0 <;>
  by_cases h3 : e % 31536000 % 2592000 / 86400 = 0 <;>
  by_cases h4 : e % 31536000 % 2592000 % 86400 / 3600 = 0 <;>
  by_cases h5 : e % 31536000 % 2592000 % 86400 % 3600 / 60 = 0 <;>
  by_cases h6 : e % 31536000 % 2592000 % 86400 % 3600 % 60 = 0 <;>
  simp [h1, h2, h3, h4, h5, h6, specRenderUnit, year_str, month_str, day_str,
    hour_str, minute_str, second_str]

/-- Compact style of the code's formatter coincides with the spec's
rendering for every elapsed-seconds value. -/
theorem formatElapsed_compact_eq (e : Nat) : formatElapsed false e = compactSpec e := by
  simp only [formatElapsed, compactSpec, specCompactList, firstNonZero]
  by_cases h1 : e / 31536000 = 0 <;>
  by_cases h2 : e % 31536000 / 2592000 = 0 <;>
  by_cases h3 : e % 31536000 % 2592000 / 86400 = 0 <;>
  by_cases h4 : e % 31536000 % 2592000 % 86400 / 3600 = 0 <;>
  by_cases h5 : e % 31536000 % 2592000 % 86400 % 3600 / 60 = 0 <;>
  simp [h1, h2, h3, h4, h5, abbrev_str]

/-- The code's clamp agrees with the spec's `max(0, floor(...))`. -/
theorem elapsedSecs_eq_max (dateMs nowMs : Int) :
    elapsedSecs dateMs nowMs = (max 0 ((nowMs - dateMs).fdiv 1000)).toNat := by
  unfold elapsedSecs
  rcases le_or_lt 0 ((nowMs - dateMs).fdiv 1000) with h | h
  · simp [not_lt.mpr h, max_eq_right h]
  · simp [h, max_eq_left h.le]

theorem elapsedSecs_self (t : Int) : elapsedSecs t t = 0 := by
  simp [elapsedSecs, Int.sub_self]

end RelTs

namespace RelTs

/-- C1: for every instant and now with `now ≥ instant`, detailed-mode
`format` greedily decomposes the floored elapsed seconds with the fixed
divisors 31536000/2592000/86400/3600/60, carrying remainders downward,
and renders every non-zero unit as `"<n> <unit>"` with plural `"s"` iff
`n ≠ 1`, descending, space-joined, with `" ago"` appended (seconds
forced when every unit is zero); in particular an elapsed value of
90061 seconds renders `"1 day 1 hour 1 minute 1 second ago"`. -/
theorem c1_detailed_decomposition (lu tt : Bool) (dateMs nowMs : Int)
    (h : dateMs ≤ nowMs) :
    format { detailed := true, liveUpdate := lu, showTooltip := tt } dateMs nowMs
      = detailedSpec (elapsedSecs dateMs nowMs)
    ∧ format { detailed := true, liveUpdate := lu, showTooltip := tt } 0 90061000
      = "1 day 1 hour 1 minute 1 second ago" := by
  refine ⟨formatElapsed_detailed_eq (elapsedSecs dateMs nowMs), ?_⟩
  show formatElapsed true (elapsedSecs 0 90061000) = "1 day 1 hour 1 minute 1 second ago"
  decide

/-- Witness for C1 at `instant = 0`, `now = 90061000` ms. -/
theorem c1_detailed_decomposition_witness :
    (0 : Int) ≤ 90061000
    ∧ (format { detailed := true, liveUpdate := true, showTooltip := true } 0 90061000
        = detailedSpec (elapsedSecs 0 90061000)
      ∧ format { detailed := true, liveUpdate := true, showTooltip := true } 0 90061000
        = "1 day 1 hour 1 minute 1 second ago") :=
  ⟨by decide, c1_detailed_decomposition true true 0 90061000 (by decide)⟩

/-- C2: for every instant and now, compact-mode `format` returns only
the single largest non-zero unit abbreviated `y/mo/d/h/m/s` followed by
`" ago"`, falling back to the seconds form when every unit is zero;
the elapsed value is `max(0, floor(seconds(now - instant)))`, so
`format(t, t)` yields `"0s ago"` compact and `"0 seconds ago"`
detailed. -/
theorem c2_compact_single_unit :
    (∀ (lu tt : Bool) (dateMs nowMs : Int),
      format { detailed := false, liveUpdate := lu, showTooltip := tt } dateMs nowMs
        = compactSpec (elapsedSecs dateMs nowMs)
      ∧ elapsedSecs dateMs nowMs = (max 0 ((nowMs - dateMs).fdiv 1000)).toNat)
    ∧ (∀ (lu tt : Bool) (t : Int),
      format { detailed := false, liveUpdate := lu, showTooltip := tt } t t = "0s ago"
      ∧ format { detailed := true, liveUpdate := lu, showTooltip := tt } t t
        = "0 seconds ago") := by
  constructor
  · intro lu tt dateMs nowMs
    exact ⟨formatElapsed_compact_eq (elapsedSecs dateMs nowMs),
      elapsedSecs_eq_max dateMs nowMs⟩
  · intro lu tt t
    constructor <;> simp [format, elapsedSecs_self] <;> decide

end RelTs

namespace RelTs

/-! ### `attachCore` characterisation -/

theorem classes_updateChip (env : DateEnv) (s : Settings) (now date : Int) (next : Elem) :
    (updateChip env s now date next).classes = next.classes := by
  unfold updateChip
  by_cases h : s.showTooltip <;> simp [h, classes_setAttr, classes_removeAttr]

theorem classes_mkSpan (env : DateEnv) (s : Settings) (now date : Int) :
    (mkSpan env s now date).classes = [injectedClass] := by
  unfold mkSpan
  by_cases h : s.showTooltip <;> simp [h, classes_setAttr]

theorem attachCore_of_marked (env : DateEnv) (s : Settings) (now : Int) (src : Elem)
    (next? : Option Elem) (h : hasAttr src markerAttr = true) :
    attachCore env s now src next? = .noop := by
  simp [attachCore, h]

theorem attachCore_of_noInstant (env : DateEnv) (s : Settings) (now : Int) (src : Elem)
    (next? : Option Elem) (hm : hasAttr src markerAttr = false)
    (he : extractInstant src = none) :
    attachCore env s now src next? = .noop := by
  simp [attachCore, hm, he]

theorem attachCore_of_unparsable (env : DateEnv) (s : Settings) (now : Int) (src : Elem)
    (next? : Option Elem) (dt : String) (hm : hasAttr src markerAttr = false)
    (he : extractInstant src = some dt) (hp : env.parse dt = none) :
    attachCore env s now src next? = .noop := by
  simp [attachCore, hm, he, hp]

theorem attachCore_updated_eq (env : DateEnv) (s : Settings) (now : Int) (src next : Elem)
    (dt : String) (date : Int) (hm : hasAttr src markerAttr = false)
    (he : extractInstant src = some dt) (hp : env.parse dt = some date)
    (hc : next.classes.contains injectedClass = true) :
    attachCore env s now src (some next)
      = .updated (setAttr src markerAttr "true") (updateChip env s now date next) := by
  have hc' : injectedClass ∈ next.classes := by simpa using hc
  simp [attachCore, hm, he, hp, hc']

theorem attachCore_inserted_eq (env : DateEnv) (s : Settings) (now : Int) (src next : Elem)
    (dt : String) (date : Int) (hm : hasAttr src markerAttr = false)
    (he : extractInstant src = some dt) (hp : env.parse dt = some date)
    (hc : next.classes.contains injectedClass = false) :
    attachCore env s now src (some next)
      = .inserted (setAttr src markerAttr "true") (mkSpan env s now date) := by
  have hc' : injectedClass ∉ next.classes := by simpa using hc
  simp [attachCore, hm, he, hp, hc']

theorem attachCore_inserted_last_eq (env : DateEnv) (s : Settings) (now : Int) (src : Elem)
    (dt : String) (date : Int) (hm : hasAttr src markerAttr = false)
    (he : extractInstant src = some dt) (hp : env.parse dt = some date) :
    attachCore env s now src none
      = .inserted (setAttr src markerAttr "true") (mkSpan env s now date) := by
  simp [attachCore, hm, he, hp]

theorem attachCore_updated_inv (env : DateEnv) (s : Settings) (now : Int) (src : Elem)
    (next? : Option Elem) (src' chip' : Elem)
    (h : attachCore env s now src next? = .updated src' chip') :
    src' = setAttr src markerAttr "true"
    ∧ ∃ next date, next? = some next ∧ next.classes.contains injectedClass = true
        ∧ chip' = updateChip env s now date next := by
  unfold attachCore at h
  split at h
  · exact absurd h (by simp)
  · split at h
    · exact absurd h (by simp)
    · split at h
      · exact absurd h (by simp)
      · split at h
        · split at h
          · injection h with h1 h2
            exact ⟨h1.symm, _, _, rfl, by assumption, h2.symm⟩
          · exact absurd h (by simp)
        · exact absurd h (by simp)

theorem attachCore_inserted_inv (env : DateEnv) (s : Settings) (now : Int) (src : Elem)
    (next? : Option Elem) (src' chip : Elem)
    (h : attachCore env s now src next? = .inserted src' chip) :
    src' = setAttr src markerAttr "true" ∧ ∃ date, chip = mkSpan env s now date := by
  unfold attachCore at h
  split at h
  · exact absurd h (by simp)
  · split at h
    · exact absurd h (by simp)
    · split at h
      · exact absurd h (by simp)
      · split at h
        · split at h
          · exact absurd h (by simp)
          · injection h with h1 h2
            exact ⟨h1.symm, _, h2.symm⟩
        · injection h with h1 h2
          exact ⟨h1.symm, _, h2.symm⟩

end RelTs

namespace RelTs

/-! ### `attach` document-level lemmas -/

theorem length_insertAt (l : List Elem) (n : Nat) (a : Elem) :
    (insertAt l n a).length = l.length + 1 := by
  simp [insertAt]
  omega

theorem attach_of_none (env : DateEnv) (s : Settings) (now : Int) (d : List Elem) (i : Nat)
    (h : d[i]? = none) : attach env s now d i = d := by
  simp [attach, h]

theorem attach_of_noop (env : DateEnv) (s : Settings) (now : Int) (d : List Elem) (i : Nat)
    (src : Elem) (hd : d[i]? = some src)
    (hc : attachCore env s now src d[i + 1]? = .noop) : attach env s now d i = d := by
  simp [attach, hd, hc]

theorem attach_of_marked (env : DateEnv) (s : Settings) (now : Int) (d : List Elem) (i : Nat)
    (src : Elem) (hd : d[i]? = some src) (h : hasAttr src markerAttr = true) :
    attach env s now d i = d :=
  attach_of_noop env s now d i src hd (attachCore_of_marked env s now src _ h)

theorem attach_updated_eq (env : DateEnv) (s : Settings) (now : Int) (d : List Elem) (i : Nat)
    (src src' chip' : Elem) (hd : d[i]? = some src)
    (hc : attachCore env s now src d[i + 1]? = .updated src' chip') :
    attach env s now d i = (d.set i src').set (i + 1) chip' := by
  simp [attach, hd, hc]

theorem attach_inserted_eq (env : DateEnv) (s : Settings) (now : Int) (d : List Elem) (i : Nat)
    (src src' chip : Elem) (hd : d[i]? = some src)
    (hc : attachCore env s now src d[i + 1]? = .inserted src' chip) :
    attach env s now d i = insertAt (d.set i src') (i + 1) chip := by
  simp [attach, hd, hc]

theorem getElem_set_set_self (d : List Elem) (i : Nat) (a b : Elem) (hi : i < d.length) :
    ((d.set i a).set (i + 1) b)[i]? = some a := by
  rw [List.getElem?_set_ne (by omega)]
  simp [List.getElem?_set, hi]

theorem getElem_insertAt_lt (l : List Elem) (n i : Nat) (a : Elem) (h1 : i < n)
    (h2 : i < l.length) : (insertAt l n a)[i]? = l[i]? := by
  unfold insertAt
  rw [List.getElem?_append, if_pos (by simp [List.length_take]; omega),
    List.getElem?_take, if_pos h1]

theorem getElem_insertAt_self (l : List Elem) (n : Nat) (a : Elem) (h : n ≤ l.length) :
    (insertAt l n a)[n]? = some a := by
  unfold insertAt
  rw [List.getElem?_append_right (by simp [List.length_take])]
  simp [List.length_take, Nat.min_eq_left h]

/-- After any `attach`, either nothing happened or the element at the
source position is the marker-bearing source. -/
theorem attach_marks_or_eq (env : DateEnv) (s : Settings) (now : Int) (d : List Elem) (i : Nat)
    (src : Elem) (hd : d[i]? = some src) :
    attach env s now d i = d
    ∨ (attach env s now d i)[i]? = some (setAttr src markerAttr "true") := by
  have hi : i < d.length := by
    rcases List.getElem?_eq_some.mp hd with ⟨hlt, _⟩
    exact hlt
  rcases hc : attachCore env s now src d[i + 1]? with _ | ⟨src', chip'⟩ | ⟨src', chip⟩
  · exact Or.inl (attach_of_noop env s now d i src hd hc)
  · obtain ⟨h1, -⟩ := attachCore_updated_inv env s now src _ src' chip' hc
    subst h1
    right
    rw [attach_updated_eq env s now d i src _ chip' hd hc]
    exact getElem_set_set_self d i _ chip' hi
  · obtain ⟨h1, -⟩ := attachCore_inserted_inv env s now src _ src' chip hc
    subst h1
    right
    rw [attach_inserted_eq env s now d i src _ chip hd hc]
    rw [getElem_insertAt_lt _ _ _ _ (by omega) (by simp [List.length_set]; omega)]
    simp [List.getElem?_set, hi]

theorem attach_attach (env : DateEnv) (s : Settings) (now : Int) (d : List Elem) (i : Nat) :
    attach env s now (attach env s now d i) i = attach env s now d i := by
  rcases hd : d[i]? with _ | src
  · rw [attach_of_none env s now d i hd]
    exact attach_of_none env s now d i hd
  · rcases attach_marks_or_eq env s now d i src hd with h | h
    · rw [h]
      exact h
    · exact attach_of_marked env s now _ i _ h (hasAttr_setAttr_self src markerAttr "true")

theorem attach_length_le (env : DateEnv) (s : Settings) (now : Int) (d : List Elem) (i : Nat) :
    (attach env s now d i).length ≤ d.length + 1 := by
  rcases hd : d[i]? with _ | src
  · rw [attach_of_none env s now d i hd]; omega
  · rcases hc : attachCore env s now src d[i + 1]? with _ | ⟨src', chip'⟩ | ⟨src', chip⟩
    · rw [attach_of_noop env s now d i src hd hc]; omega
    · rw [attach_updated_eq env s now d i src src' chip' hd hc]
      simp [List.length_set]
    · rw [attach_inserted_eq env s now d i src src' chip hd hc]
      rw [length_insertAt]
      simp [List.length_set]

end RelTs

namespace RelTs

theorem countP_set_eq (p : Elem → Bool) (d : List Elem) (i : Nat) (a b : Elem)
    (hd : d[i]? = some b) (h : p a = p b) : (d.set i a).countP p = d.countP p := by
  induction d generalizing i with
  | nil => simp at hd
  | cons x xs ih =>
    cases i with
    | zero =>
      simp only [List.getElem?_cons_zero, Option.some.injEq] at hd
      subst hd
      simp [List.countP_cons, h]
    | succ n =>
      simp only [List.getElem?_cons_succ] at hd
      simp [List.set_cons_succ, List.countP_cons, ih n hd]

theorem labelCount_insertAt (l : List Elem) (n : Nat) (a : Elem) :
    labelCount (insertAt l n a)
      = labelCount l + (if a.classes.contains injectedClass then 1 else 0) := by
  unfold labelCount insertAt
  rw [List.countP_append]
  conv_rhs => rw [← List.take_append_drop n l, List.countP_append]
  simp [List.countP_cons]
  omega

theorem attach_labelCount_le (env : DateEnv) (s : Settings) (now : Int) (d : List Elem)
    (i : Nat) : labelCount (attach env s now d i) ≤ labelCount d + 1 := by
  rcases hd : d[i]? with _ | src
  · rw [attach_of_none env s now d i hd]; omega
  · rcases hc : attachCore env s now src d[i + 1]? with _ | ⟨src', chip'⟩ | ⟨src', chip⟩
    · rw [attach_of_noop env s now d i src hd hc]; omega
    · obtain ⟨h1, next, date, hn, hcls, h2⟩ := attachCore_updated_inv env s now src _ src' chip' hc
      rw [attach_updated_eq env s now d i src src' chip' hd hc]
      have e1 : (d.set i src').countP (fun e => e.classes.contains injectedClass)
          = d.countP (fun e => e.classes.contains injectedClass) := by
        refine countP_set_eq _ d i src' src hd ?_
        subst h1
        simp [classes_setAttr]
      have hn' : (d.set i src')[i + 1]? = some next := by
        rw [List.getElem?_set_ne (by omega)]
        exact hn
      have e2 : ((d.set i src').set (i + 1) chip').countP
            (fun e => e.classes.contains injectedClass)
          = (d.set i src').countP (fun e => e.classes.contains injectedClass) := by
        refine countP_set_eq _ _ (i + 1) chip' next hn' ?_
        subst h2
        simp [classes_updateChip]
      show labelCount _ ≤ labelCount d + 1
      unfold labelCount
      rw [e2, e1]
      omega
    · obtain ⟨h1, date, h2⟩ := attachCore_inserted_inv env s now src _ src' chip hc
      rw [attach_inserted_eq env s now d i src src' chip hd hc]
      rw [labelCount_insertAt]
      have e1 : labelCount (d.set i src') = labelCount d := by
        refine countP_set_eq _ d i src' src hd ?_
        subst h1
        simp [classes_setAttr]
      rw [e1]
      split <;> omega

/-- A successful `attach` leaves a chip right after the source. -/
theorem attach_chip_at_next (env : DateEnv) (s : Settings) (now : Int) (d : List Elem)
    (i : Nat) (src : Elem) (dt : String) (date : Int)
    (hd : d[i]? = some src) (hm : hasAttr src markerAttr = false)
    (he : extractInstant src = some dt) (hp : env.parse dt = some date) :
    ∃ chip, (attach env s now d i)[i + 1]? = some chip
      ∧ chip.classes.contains injectedClass = true := by
  have hi : i < d.length := by
    rcases List.getElem?_eq_some.mp hd with ⟨hlt, -⟩
    exact hlt
  rcases hn : d[i + 1]? with _ | next
  · have hc : attachCore env s now src d[i + 1]? =
        .inserted (setAttr src markerAttr "true") (mkSpan env s now date) := by
      rw [hn]
      exact attachCore_inserted_last_eq env s now src dt date hm he hp
    rw [attach_inserted_eq env s now d i src _ _ hd hc]
    refine ⟨mkSpan env s now date, ?_, by simp [classes_mkSpan]⟩
    exact getElem_insertAt_self _ _ _ (by simp [List.length_set]; omega)
  · by_cases hcls : next.classes.contains injectedClass = true
    · have hc : attachCore env s now src d[i + 1]? =
          .updated (setAttr src markerAttr "true") (updateChip env s now date next) := by
        rw [hn]
        exact attachCore_updated_eq env s now src next dt date hm he hp hcls
      rw [attach_updated_eq env s now d i src _ _ hd hc]
      refine ⟨updateChip env s now date next, ?_, ?_⟩
      · have hlen : i + 1 < d.length := (List.getElem?_eq_some.mp hn).1
        simp [List.getElem?_set, List.length_set, hlen]
      · rw [classes_updateChip]
        exact hcls
    · have hc : attachCore env s now src d[i + 1]? =
          .inserted (setAttr src markerAttr "true") (mkSpan env s now date) := by
        rw [hn]
        exact attachCore_inserted_eq env s now src next dt date hm he hp
          (by simpa using hcls)
      rw [attach_inserted_eq env s now d i src _ _ hd hc]
      refine ⟨mkSpan env s now date, ?_, by simp [classes_mkSpan]⟩
      exact getElem_insertAt_self _ _ _ (by simp [List.length_set]; omega)

end RelTs

namespace RelTs

/-- C3: `attach` is idempotent: a second (and any later) call on the
same source changes nothing; one call inserts at most one element and
at most one annotation chip; and a successful call leaves exactly the
adjacent chip right after the source. -/
theorem c3_attach_idempotent (env : DateEnv) (s : Settings) (now : Int) (d : List Elem)
    (i : Nat) :
    attach env s now (attach env s now d i) i = attach env s now d i
    ∧ (attach env s now d i).length ≤ d.length + 1
    ∧ labelCount (attach env s now d i) ≤ labelCount d + 1
    ∧ (∀ src dt date, d[i]? = some src → hasAttr src markerAttr = false →
        extractInstant src = some dt → env.parse dt = some date →
        ∃ chip, (attach env s now d i)[i + 1]? = some chip
          ∧ chip.classes.contains injectedClass = true) :=
  ⟨attach_attach env s now d i, attach_length_le env s now d i,
   attach_labelCount_le env s now d i,
   fun src dt date hd hm he hp => attach_chip_at_next env s now d i src dt date hd hm he hp⟩

/-- Witness for C3 on a one-element document holding an unmarked
parsable `time` element. -/
theorem c3_attach_idempotent_witness :
    ∃ chip,
      (attach ⟨fun t => if t = "T" then some 0 else none,
          fun n => "iso" ++ toString n, fun n => "loc" ++ toString n⟩
        defaultSettings 5 [⟨"time", [("datetime", "T")], [], ""⟩] 0)[0 + 1]? = some chip
      ∧ chip.classes.contains injectedClass = true :=
  (c3_attach_idempotent ⟨fun t => if t = "T" then some 0 else none,
      fun n => "iso" ++ toString n, fun n => "loc" ++ toString n⟩
    defaultSettings 5 [⟨"time", [("datetime", "T")], [], ""⟩] 0).2.2.2
    ⟨"time", [("datetime", "T")], [], ""⟩ "T" 0 rfl rfl rfl rfl

/-- C7: when the extracted instant string does not parse, `attach`
returns with the document unchanged: no label is created or modified
and the source is left unmarked, still eligible for reprocessing. -/
theorem c7_unparsable_instant_noop (env : DateEnv) (s : Settings) (now : Int) (d : List Elem)
    (i : Nat) (src : Elem) (dt : String)
    (hd : d[i]? = some src) (hm : hasAttr src markerAttr = false)
    (he : extractInstant src = some dt) (hp : env.parse dt = none) :
    attach env s now d i = d
    ∧ (attach env s now d i)[i]? = some src
    ∧ hasAttr src markerAttr = false := by
  have h := attach_of_noop env s now d i src hd
    (attachCore_of_unparsable env s now src _ dt hm he hp)
  exact ⟨h, by rw [h]; exact hd, hm⟩

/-- Witness for C7: a `time` element whose datetime no host parser
accepts. -/
theorem c7_unparsable_instant_noop_witness :
    attach ⟨fun _ => none, fun n => "iso" ++ toString n, fun n => "loc" ++ toString n⟩
        defaultSettings 5 [⟨"time", [("datetime", "bad")], [], ""⟩] 0
      = [⟨"time", [("datetime", "bad")], [], ""⟩]
    ∧ (attach ⟨fun _ => none, fun n => "iso" ++ toString n, fun n => "loc" ++ toString n⟩
        defaultSettings 5 [⟨"time", [("datetime", "bad")], [], ""⟩] 0)[0]?
      = some ⟨"time", [("datetime", "bad")], [], ""⟩
    ∧ hasAttr ⟨"time", [("datetime", "bad")], [], ""⟩ markerAttr = false :=
  c7_unparsable_instant_noop ⟨fun _ => none, fun n => "iso" ++ toString n,
      fun n => "loc" ++ toString n⟩
    defaultSettings 5 [⟨"time", [("datetime", "bad")], [], ""⟩] 0
    ⟨"time", [("datetime", "bad")], [], ""⟩ "bad" rfl rfl rfl rfl

theorem extractInstant_none_of_blank (src : Elem)
    (h1 : getAttr src "datetime" = none ∨ getAttr src "datetime" = some "")
    (h2 : getAttr src "title" = none ∨ getAttr src "title" = some "") :
    extractInstant src = none := by
  unfold extractInstant jsOrElse
  rcases h1 with h1 | h1 <;> rcases h2 with h2 | h2 <;> simp [h1, h2]

/-- C10: when both the `datetime` and the `title` attribute are absent
or empty, `attach` changes nothing and leaves the source unmarked; an
empty `datetime` falls back to the `title` attribute. -/
theorem c10_blank_attributes (env : DateEnv) (s : Settings) (now : Int) (d : List Elem)
    (i : Nat) :
    (∀ src, d[i]? = some src → hasAttr src markerAttr = false →
      (getAttr src "datetime" = none ∨ getAttr src "datetime" = some "") →
      (getAttr src "title" = none ∨ getAttr src "title" = some "") →
      attach env s now d i = d ∧ (attach env s now d i)[i]? = some src)
    ∧ (∀ el t, getAttr el "datetime" = some "" → getAttr el "title" = some t →
        extractInstant el = if t = "" then none else some t) := by
  constructor
  · intro src hd hm h1 h2
    have h := attach_of_noop env s now d i src hd
      (attachCore_of_noInstant env s now src _ hm (extractInstant_none_of_blank src h1 h2))
    exact ⟨h, by rw [h]; exact hd⟩
  · intro el t h1 h2
    unfold extractInstant jsOrElse
    simp [h1, h2]

/-- Witness for C10: an element with empty `datetime` and absent
`title`, plus the fallback equation on an element with empty `datetime`
and a non-empty `title`. -/
theorem c10_blank_attributes_witness :
    (attach ⟨fun t => if t = "T" then some 0 else none,
        fun n => "iso" ++ toString n, fun n => "loc" ++ toString n⟩
        defaultSettings 5 [⟨"time", [("datetime", "")], [], ""⟩] 0
      = [⟨"time", [("datetime", "")], [], ""⟩]
    ∧ (attach ⟨fun t => if t = "T" then some 0 else none,
        fun n => "iso" ++ toString n, fun n => "loc" ++ toString n⟩
        defaultSettings 5 [⟨"time", [("datetime", "")], [], ""⟩] 0)[0]?
      = some ⟨"time", [("datetime", "")], [], ""⟩)
    ∧ extractInstant ⟨"time", [("datetime", ""), ("title", "T")], [], ""⟩
      = if ("T" : String) = "" then none else some "T" :=
  ⟨(c10_blank_attributes ⟨fun t => if t = "T" then some 0 else none,
        fun n => "iso" ++ toString n, fun n => "loc" ++ toString n⟩
      defaultSettings 5 [⟨"time", [("datetime", "")], [], ""⟩] 0).1
      ⟨"time", [("datetime", "")], [], ""⟩ rfl rfl (Or.inr rfl) (Or.inl rfl),
   (c10_blank_attributes ⟨fun t => if t = "T" then some 0 else none,
        fun n => "iso" ++ toString n, fun n => "loc" ++ toString n⟩
      defaultSettings 5 [⟨"time", [("datetime", "")], [], ""⟩] 0).2
      ⟨"time", [("datetime", ""), ("title", "T")], [], ""⟩ "T" rfl rfl⟩

end RelTs

namespace RelTs

/-! ### `updateChip` field lemmas and the C4 reconciliation claim -/

theorem getAttr_updateChip_ts (env : DateEnv) (s : Settings) (now date : Int) (next : Elem) :
    getAttr (updateChip env s now date next) tsAttr = some (env.toISO date) := by
  unfold updateChip
  by_cases h : s.showTooltip
  · simp only [h, if_true]
    rw [getAttr_setAttr_ne _ _ _ _ (by decide)]
    exact getAttr_setAttr_self next tsAttr _
  · simp only [h, if_false, Bool.false_eq_true]
    rw [getAttr_removeAttr_ne _ _ _ (by decide)]
    exact getAttr_setAttr_self next tsAttr _

theorem text_updateChip (env : DateEnv) (s : Settings) (now date : Int) (next : Elem) :
    (updateChip env s now date next).text = format s date now := by
  unfold updateChip
  by_cases h : s.showTooltip <;> simp [h, text_setAttr, text_removeAttr]

theorem title_updateChip_pos (env : DateEnv) (s : Settings) (now date : Int) (next : Elem)
    (h : s.showTooltip = true) :
    getAttr (updateChip env s now date next) "title" = some (env.toLocale date) := by
  unfold updateChip
  simp only [h, if_true]
  exact getAttr_setAttr_self _ "title" _

theorem title_updateChip_neg (env : DateEnv) (s : Settings) (now date : Int) (next : Elem)
    (h : s.showTooltip = false) :
    getAttr (updateChip env s now date next) "title" = none := by
  unfold updateChip
  simp only [h, Bool.false_eq_true, if_false]
  exact getAttr_removeAttr_self _ "title"

theorem tag_updateChip (env : DateEnv) (s : Settings) (now date : Int) (next : Elem) :
    (updateChip env s now date next).tag = next.tag := by
  unfold updateChip
  by_cases h : s.showTooltip <;> simp [h, tag_setAttr, tag_removeAttr]

/-- A successful `attach` marks the source in both the update and the
create branch. -/
theorem attach_marks_of_success (env : DateEnv) (s : Settings) (now : Int) (d : List Elem)
    (i : Nat) (src : Elem) (dt : String) (date : Int)
    (hd : d[i]? = some src) (hm : hasAttr src markerAttr = false)
    (he : extractInstant src = some dt) (hp : env.parse dt = some date) :
    (attach env s now d i)[i]? = some (setAttr src markerAttr "true") := by
  have hi : i < d.length := (List.getElem?_eq_some.mp hd).1
  rcases hn : d[i + 1]? with _ | next
  · have hc : attachCore env s now src d[i + 1]? =
        .inserted (setAttr src markerAttr "true") (mkSpan env s now date) := by
      rw [hn]
      exact attachCore_inserted_last_eq env s now src dt date hm he hp
    rw [attach_inserted_eq env s now d i src _ _ hd hc]
    rw [getElem_insertAt_lt _ _ _ _ (by omega) (by simp [List.length_set]; omega)]
    simp [List.getElem?_set, hi]
  · by_cases hcls : next.classes.contains injectedClass = true
    · have hc : attachCore env s now src d[i + 1]? =
          .updated (setAttr src markerAttr "true") (updateChip env s now date next) := by
        rw [hn]
        exact attachCore_updated_eq env s now src next dt date hm he hp hcls
      rw [attach_updated_eq env s now d i src _ _ hd hc]
      exact getElem_set_set_self d i _ _ hi
    · have hc : attachCore env s now src d[i + 1]? =
          .inserted (setAttr src markerAttr "true") (mkSpan env s now date) := by
        rw [hn]
        exact attachCore_inserted_eq env s now src next dt date hm he hp (by simpa using hcls)
      rw [attach_inserted_eq env s now d i src _ _ hd hc]
      rw [getElem_insertAt_lt _ _ _ _ (by omega) (by simp [List.length_set]; omega)]
      simp [List.getElem?_set, hi]

/-- C4: when an annotation chip already sits right after an unmarked
parsable source, `attach` updates that chip in place — stored instant,
text, and tooltip — inserts nothing, touches no other position, and
marks the source; the source is marked in the create branch too. -/
theorem c4_update_in_place (env : DateEnv) (s : Settings) (now : Int) (d : List Elem)
    (i : Nat) :
    (∀ src next dt date, d[i]? = some src → hasAttr src markerAttr = false →
      extractInstant src = some dt → env.parse dt = some date →
      d[i + 1]? = some next → next.classes.contains injectedClass = true →
      (attach env s now d i).length = d.length
      ∧ (attach env s now d i)[i + 1]? = some (updateChip env s now date next)
      ∧ getAttr (updateChip env s now date next) tsAttr = some (env.toISO date)
      ∧ (updateChip env s now date next).text = format s date now
      ∧ (s.showTooltip = true →
          getAttr (updateChip env s now date next) "title" = some (env.toLocale date))
      ∧ (s.showTooltip = false →
          getAttr (updateChip env s now date next) "title" = none)
      ∧ (updateChip env s now date next).classes = next.classes
      ∧ (updateChip env s now date next).tag = next.tag
      ∧ (∀ j, j ≠ i → j ≠ i + 1 → (attach env s now d i)[j]? = d[j]?))
    ∧ (∀ src dt date, d[i]? = some src → hasAttr src markerAttr = false →
        extractInstant src = some dt → env.parse dt = some date →
        (attach env s now d i)[i]? = some (setAttr src markerAttr "true")
        ∧ hasAttr (setAttr src markerAttr "true") markerAttr = true) := by
  constructor
  · intro src next dt date hd hm he hp hn hcls
    have hi : i < d.length := (List.getElem?_eq_some.mp hd).1
    have hi1 : i + 1 < d.length := (List.getElem?_eq_some.mp hn).1
    have hc : attachCore env s now src d[i + 1]? =
        .updated (setAttr src markerAttr "true") (updateChip env s now date next) := by
      rw [hn]
      exact attachCore_updated_eq env s now src next dt date hm he hp hcls
    rw [attach_updated_eq env s now d i src _ _ hd hc]
    refine ⟨by simp [List.length_set], ?_, getAttr_updateChip_ts env s now date next,
      text_updateChip env s now date next,
      fun ht => title_updateChip_pos env s now date next ht,
      fun ht => title_updateChip_neg env s now date next ht,
      classes_updateChip env s now date next, tag_updateChip env s now date next, ?_⟩
    · simp [List.getElem?_set, List.length_set, hi1]
    · intro j hj1 hj2
      rw [List.getElem?_set_ne (fun h => hj2 h.symm),
        List.getElem?_set_ne (fun h => hj1 h.symm)]
  · intro src dt date hd hm he hp
    exact ⟨attach_marks_of_success env s now d i src dt date hd hm he hp,
      hasAttr_setAttr_self src markerAttr "true"⟩

/-- Witness for C4: a two-element document whose `time` source is
followed by an existing chip. -/
theorem c4_update_in_place_witness :
    ((attach ⟨fun t => if t = "T" then some 0 else none,
        fun n => "iso" ++ toString n, fun n => "loc" ++ toString n⟩
      defaultSettings 5
      [⟨"time", [("datetime", "T")], [], ""⟩, ⟨"span", [], ["bd-rel-ts"], "old"⟩] 0).length
      = ([⟨"time", [("datetime", "T")], [], ""⟩,
          ⟨"span", [], ["bd-rel-ts"], "old"⟩] : List Elem).length)
    ∧ (attach ⟨fun t => if t = "T" then some 0 else none,
        fun n => "iso" ++ toString n, fun n => "loc" ++ toString n⟩
      defaultSettings 5
      [⟨"time", [("datetime", "T")], [], ""⟩, ⟨"span", [], ["bd-rel-ts"], "old"⟩] 0)[0]?
      = some (setAttr ⟨"time", [("datetime", "T")], [], ""⟩ markerAttr "true") := by
  refine ⟨((c4_update_in_place ⟨fun t => if t = "T" then some 0 else none,
      fun n => "iso" ++ toString n, fun n => "loc" ++ toString n⟩
    defaultSettings 5
    [⟨"time", [("datetime", "T")], [], ""⟩, ⟨"span", [], ["bd-rel-ts"], "old"⟩] 0).1
    ⟨"time", [("datetime", "T")], [], ""⟩ ⟨"span", [], ["bd-rel-ts"], "old"⟩ "T" 0
    rfl rfl rfl rfl rfl (by decide)).1,
   ((c4_update_in_place ⟨fun t => if t = "T" then some 0 else none,
      fun n => "iso" ++ toString n, fun n => "loc" ++ toString n⟩
    defaultSettings 5
    [⟨"time", [("datetime", "T")], [], ""⟩, ⟨"span", [], ["bd-rel-ts"], "old"⟩] 0).2
    ⟨"time", [("datetime", "T")], [], ""⟩ "T" 0 rfl rfl rfl rfl).1⟩

end RelTs

namespace RelTs

/-! ### C6: refresh ticks re-render chips from their stored instants -/

/-- C6: on a tick, every chip whose stored instant is present (and
parses) gets text `format(storedInstant, now)`, computed from the
chip's own attributes alone — the result at a position depends only on
the element at that position — while chips without a stored instant and
non-chip elements are untouched. -/
theorem c6_refresh_from_stored (env : DateEnv) (s : Settings) (now : Int) (d : List Elem)
    (i : Nat) (el : Elem) (hd : d[i]? = some el) :
    (el.classes.contains injectedClass = true →
      ∀ ts date, getAttr el tsAttr = some ts → ts ≠ "" → env.parse ts = some date →
        (refreshAll env s now d)[i]? = some { el with text := format s date now })
    ∧ (getAttr el tsAttr = none → (refreshAll env s now d)[i]? = some el)
    ∧ (el.classes.contains injectedClass = false →
        (refreshAll env s now d)[i]? = some el)
    ∧ (∀ (d' : List Elem) (j : Nat), d'[j]? = some el →
        (refreshAll env s now d')[j]? = (refreshAll env s now d)[i]?) := by
  have hmap : (refreshAll env s now d)[i]? = some (refreshChip env s now el) := by
    simp [refreshAll, List.getElem?_map, hd]
  refine ⟨?_, ?_, ?_, ?_⟩
  · intro hcls ts date hts hne hp
    rw [hmap]
    have hcls' : injectedClass ∈ el.classes := by simpa using hcls
    simp [refreshChip, hcls', hts, hne, hp]
  · intro hts
    rw [hmap]
    by_cases hcls : el.classes.contains injectedClass = true
    · have hcls' : injectedClass ∈ el.classes := by simpa using hcls
      simp [refreshChip, hcls', hts]
    · have hcls' : injectedClass ∉ el.classes := by simpa using hcls
      simp [refreshChip, hcls']
  · intro hcls
    have hcls' : injectedClass ∉ el.classes := by simpa using hcls
    rw [hmap]
    simp [refreshChip, hcls']
  · intro d' j hd'
    rw [hmap]
    simp [refreshAll, List.getElem?_map, hd']

/-- Witness for C6 on a one-chip document. -/
theorem c6_refresh_from_stored_witness :
    (refreshAll ⟨fun t => if t = "T" then some 0 else none,
        fun n => "iso" ++ toString n, fun n => "loc" ++ toString n⟩
      defaultSettings 5000 [⟨"span", [("data-timestamp", "T")], ["bd-rel-ts"], "old"⟩])[0]?
      = some { (⟨"span", [("data-timestamp", "T")], ["bd-rel-ts"], "old"⟩ : Elem) with
          text := format defaultSettings 0 5000 } :=
  ((c6_refresh_from_stored ⟨fun t => if t = "T" then some 0 else none,
      fun n => "iso" ++ toString n, fun n => "loc" ++ toString n⟩
    defaultSettings 5000 [⟨"span", [("data-timestamp", "T")], ["bd-rel-ts"], "old"⟩] 0
    ⟨"span", [("data-timestamp", "T")], ["bd-rel-ts"], "old"⟩ rfl).1
    (by decide) "T" 0 rfl (by decide) rfl)

end RelTs

namespace RelTs

/-! ### C8: `stop` teardown -/

theorem hasAttr_removeAttr_self (el : Elem) (k : String) :
    hasAttr (removeAttr el k) k = false := by
  simp [hasAttr, getAttr_removeAttr_self]

theorem mem_removeFirstWithId (l : List Elem) (i : String) (e : Elem)
    (h : e ∈ removeFirstWithId l i) : e ∈ l := by
  induction l with
  | nil => simpa [removeFirstWithId] using h
  | cons x rest ih =>
    by_cases hx : getAttr x "id" = some i
    · simp only [removeFirstWithId, if_pos hx] at h
      exact List.mem_cons_of_mem x h
    · simp only [removeFirstWithId, if_neg hx] at h
      rcases List.mem_cons.mp h with h | h
      · exact h ▸ List.mem_cons_self x rest
      · exact List.mem_cons_of_mem x (ih h)

theorem mem_removeFirstWithId_of_ne (l : List Elem) (i : String) (e : Elem)
    (he : e ∈ l) (hne : getAttr e "id" ≠ some i) : e ∈ removeFirstWithId l i := by
  induction l with
  | nil => simpa using he
  | cons x rest ih =>
    by_cases hx : getAttr x "id" = some i
    · simp only [removeFirstWithId, if_pos hx]
      rcases List.mem_cons.mp he with h | h
      · exact absurd (h ▸ hx) hne
      · exact h
    · simp only [removeFirstWithId, if_neg hx]
      rcases List.mem_cons.mp he with h | h
      · exact h ▸ List.mem_cons_self x _
      · exact List.mem_cons_of_mem x (ih h)

theorem removeFirstWithId_no_id (l : List Elem) (i : String)
    (h : l.countP (fun e => decide (getAttr e "id" = some i)) ≤ 1) :
    ∀ e ∈ removeFirstWithId l i, getAttr e "id" ≠ some i := by
  induction l with
  | nil => simp [removeFirstWithId]
  | cons x rest ih =>
    by_cases hx : getAttr x "id" = some i
    · simp only [removeFirstWithId, if_pos hx]
      intro e he
      have hcount : rest.countP (fun e => decide (getAttr e "id" = some i)) = 0 := by
        rw [List.countP_cons] at h
        simp only [decide_eq_true_eq, hx, if_pos] at h
        omega
      have := List.countP_eq_zero.mp hcount e he
      simpa using this
    · simp only [removeFirstWithId, if_neg hx]
      intro e he
      rcases List.mem_cons.mp he with h' | h'
      · exact h' ▸ hx
      · refine ih ?_ e h'
        simp only [List.countP_cons, hx] at h
        simpa using h

/-- C8: after `stop`, the observer is disconnected, the timer is
cancelled, no element bears the injected class, none bears the
processed marker, the injected stylesheet is gone, and every element of
the resulting document is an original element, at most stripped of its
marker — and every original element that is neither a chip nor the
stylesheet survives.  The two hypotheses are invariants of every
plugin-produced document: only `time` elements are marked (`attach` is
only called on `querySelectorAll("time")` matches) and `injectCSS`
inserts the stylesheet at most once. -/
theorem c8_stop_cleans (st : SysState)
    (hTime : ∀ e ∈ st.doc, hasAttr e markerAttr = true → e.tag = "time")
    (hStyle : st.doc.countP (fun e => decide (getAttr e "id" = some styleId)) ≤ 1) :
    (stop st).observerActive = false
    ∧ (stop st).timerActive = false
    ∧ (∀ e ∈ (stop st).doc, e.classes.contains injectedClass = false)
    ∧ (∀ e ∈ (stop st).doc, hasAttr e markerAttr = false)
    ∧ (∀ e ∈ (stop st).doc, getAttr e "id" ≠ some styleId)
    ∧ (∀ e ∈ (stop st).doc, ∃ a ∈ st.doc, e = a ∨ e = removeAttr a markerAttr)
    ∧ (∀ a ∈ st.doc, a.classes.contains injectedClass = false →
        getAttr a "id" ≠ some styleId →
        a ∈ (stop st).doc ∨ removeAttr a markerAttr ∈ (stop st).doc) := by
  have hdoc : (stop st).doc = removeFirstWithId
      ((st.doc.filter fun e => !(e.classes.contains injectedClass)).map fun e =>
        if e.tag = "time" ∧ hasAttr e markerAttr then removeAttr e markerAttr else e)
      styleId := rfl
  have mem_doc2 : ∀ e, e ∈ ((st.doc.filter fun e => !(e.classes.contains injectedClass)).map
      fun e => if e.tag = "time" ∧ hasAttr e markerAttr then removeAttr e markerAttr else e) →
      ∃ a ∈ st.doc, a.classes.contains injectedClass = false
        ∧ e = (if a.tag = "time" ∧ hasAttr a markerAttr then removeAttr a markerAttr else a) := by
    intro e he
    rcases List.mem_map.mp he with ⟨a, ha, rfl⟩
    have ha' := List.mem_filter.mp ha
    exact ⟨a, ha'.1, by simpa using ha'.2, rfl⟩
  refine ⟨rfl, rfl, ?_, ?_, ?_, ?_, ?_⟩
  · intro e he
    rw [hdoc] at he
    rcases mem_doc2 e (mem_removeFirstWithId _ _ _ he) with ⟨a, -, hcls, rfl⟩
    split
    · simpa [classes_removeAttr] using hcls
    · exact hcls
  · intro e he
    rw [hdoc] at he
    rcases mem_doc2 e (mem_removeFirstWithId _ _ _ he) with ⟨a, hmem, -, rfl⟩
    split
    · exact hasAttr_removeAttr_self a markerAttr
    · rename_i hcond
      by_cases hmark : hasAttr a markerAttr = true
      · exact absurd ⟨hTime a hmem hmark, hmark⟩ hcond
      · simpa using hmark
  · intro e he
    rw [hdoc] at he
    refine removeFirstWithId_no_id _ _ ?_ e he
    have hle : (st.doc.filter fun e => !(e.classes.contains injectedClass)).countP
        (fun e => decide (getAttr e "id" = some styleId)) ≤
        st.doc.countP (fun e => decide (getAttr e "id" = some styleId)) :=
      (List.filter_sublist st.doc).countP_le _
    rw [List.countP_map]
    refine le_trans (le_of_eq (List.countP_congr ?_)) (le_trans hle hStyle)
    intro a _
    simp only [Function.comp]
    split
    · rw [getAttr_removeAttr_ne a markerAttr "id" (by decide)]
    · rfl
  · intro e he
    rw [hdoc] at he
    rcases mem_doc2 e (mem_removeFirstWithId _ _ _ he) with ⟨a, hmem, -, rfl⟩
    refine ⟨a, hmem, ?_⟩
    split
    · exact Or.inr rfl
    · exact Or.inl rfl
  · intro a hmem hcls hid
    have ha1 : a ∈ st.doc.filter fun e => !(e.classes.contains injectedClass) :=
      List.mem_filter.mpr ⟨hmem, by simpa using hcls⟩
    have ha2 : (if a.tag = "time" ∧ hasAttr a markerAttr then removeAttr a markerAttr else a)
        ∈ (st.doc.filter fun e => !(e.classes.contains injectedClass)).map
          (fun e => if e.tag = "time" ∧ hasAttr e markerAttr then removeAttr e markerAttr else e) :=
      List.mem_map_of_mem _ ha1
    have hid' : getAttr (if a.tag = "time" ∧ hasAttr a markerAttr
        then removeAttr a markerAttr else a) "id" ≠ some styleId := by
      split
      · rw [getAttr_removeAttr_ne a markerAttr "id" (by decide)]
        exact hid
      · exact hid
    have := mem_removeFirstWithId_of_ne _ styleId _ ha2 hid'
    rw [hdoc]
    split at this
    · exact Or.inr this
    · exact Or.inl this

end RelTs

namespace RelTs

/-- Witness for C8 on a marked `time` element, a chip, and the
stylesheet. -/
theorem c8_stop_cleans_witness :
    (stop ⟨[⟨"time", [("data-rel-ready", "true"), ("datetime", "T")], [], ""⟩,
        ⟨"span", [("data-timestamp", "T")], ["bd-rel-ts"], "x"⟩,
        ⟨"style", [("id", "bd-rel-ts-style")], [], "css"⟩],
      defaultSettings, true, true, []⟩).observerActive = false
    ∧ (stop ⟨[⟨"time", [("data-rel-ready", "true"), ("datetime", "T")], [], ""⟩,
        ⟨"span", [("data-timestamp", "T")], ["bd-rel-ts"], "x"⟩,
        ⟨"style", [("id", "bd-rel-ts-style")], [], "css"⟩],
      defaultSettings, true, true, []⟩).timerActive = false
    ∧ (∀ e ∈ (stop ⟨[⟨"time", [("data-rel-ready", "true"), ("datetime", "T")], [], ""⟩,
        ⟨"span", [("data-timestamp", "T")], ["bd-rel-ts"], "x"⟩,
        ⟨"style", [("id", "bd-rel-ts-style")], [], "css"⟩],
      defaultSettings, true, true, []⟩).doc, e.classes.contains injectedClass = false)
    ∧ (∀ e ∈ (stop ⟨[⟨"time", [("data-rel-ready", "true"), ("datetime", "T")], [], ""⟩,
        ⟨"span", [("data-timestamp", "T")], ["bd-rel-ts"], "x"⟩,
        ⟨"style", [("id", "bd-rel-ts-style")], [], "css"⟩],
      defaultSettings, true, true, []⟩).doc, hasAttr e markerAttr = false)
    ∧ (∀ e ∈ (stop ⟨[⟨"time", [("data-rel-ready", "true"), ("datetime", "T")], [], ""⟩,
        ⟨"span", [("data-timestamp", "T")], ["bd-rel-ts"], "x"⟩,
        ⟨"style", [("id", "bd-rel-ts-style")], [], "css"⟩],
      defaultSettings, true, true, []⟩).doc, getAttr e "id" ≠ some styleId) := by
  have h := c8_stop_cleans ⟨[⟨"time", [("data-rel-ready", "true"), ("datetime", "T")], [], ""⟩,
      ⟨"span", [("data-timestamp", "T")], ["bd-rel-ts"], "x"⟩,
      ⟨"style", [("id", "bd-rel-ts-style")], [], "css"⟩],
    defaultSettings, true, true, []⟩ (by decide) (by decide)
  exact ⟨h.1, h.2.1, h.2.2.1, h.2.2.2.1, h.2.2.2.2.1⟩

end RelTs

namespace RelTs

/-! ### C9: behaviour of a failing `start()` -/

/-- C9 counterexample: from an inert state with live update enabled, a
`setInterval` throw makes `start()` fail — exactly one failure toast is
surfaced — yet the mutation observer installed by the earlier `observe()`
step keeps observing, so the system is NOT left inert as claimed. -/
theorem c9_start_failure_counterexample :
    startFails ⟨false, true⟩ defaultSettings
    ∧ (start ⟨false, true⟩ ⟨fun _ => none, fun n => toString n, fun n => toString n⟩ 0
        ⟨[], defaultSettings, false, false, []⟩).toasts = [failedToast]
    ∧ (start ⟨false, true⟩ ⟨fun _ => none, fun n => toString n, fun n => toString n⟩ 0
        ⟨[], defaultSettings, false, false, []⟩).observerActive = true := by
  refine ⟨Or.inr ⟨rfl, rfl⟩, rfl, rfl⟩

/-- C9 (amended): if activation from an inert state fails, exactly one
failure toast is surfaced (and no success toast) and no timer is
running; however the observer is left observing exactly when the
failure came after observer setup — i.e. from the timer-start step —
and is absent only when CSS injection threw first. -/
theorem c9_start_failure_amended (f : StartFaults) (env : DateEnv) (now : Int)
    (st : SysState) (hobs : st.observerActive = false) (htmr : st.timerActive = false)
    (hf : startFails f st.settings) :
    (start f env now st).toasts = failedToast :: st.toasts
    ∧ (start f env now st).timerActive = false
    ∧ ((start f env now st).observerActive = true ↔ f.injectThrows = false) := by
  by_cases hit : f.injectThrows = true
  · simp [start, hit, hobs, htmr]
  · have hit' : f.injectThrows = false := by simpa using hit
    rcases hf with h | ⟨hl, hsi⟩
    · exact absurd h hit
    · simp [start, hit', hl, hsi]

/-- Witness for the amended C9 at a concrete inert state with a
`setInterval` fault. -/
theorem c9_start_failure_amended_witness :
    (start ⟨false, true⟩ ⟨fun _ => none, fun n => toString n, fun n => toString n⟩ 0
        ⟨[], defaultSettings, false, false, []⟩).toasts = failedToast :: []
    ∧ (start ⟨false, true⟩ ⟨fun _ => none, fun n => toString n, fun n => toString n⟩ 0
        ⟨[], defaultSettings, false, false, []⟩).timerActive = false
    ∧ ((start ⟨false, true⟩ ⟨fun _ => none, fun n => toString n, fun n => toString n⟩ 0
        ⟨[], defaultSettings, false, false, []⟩).observerActive = true
      ↔ StartFaults.injectThrows ⟨false, true⟩ = false) :=
  c9_start_failure_amended ⟨false, true⟩
    ⟨fun _ => none, fun n => toString n, fun n => toString n⟩ 0
    ⟨[], defaultSettings, false, false, []⟩ rfl rfl (Or.inr ⟨rfl, rfl⟩)

/-! ### C5: settings persistence round-trip -/

/-- C5: `save` then `load` reproduces any well-formed `Settings` value
exactly; a missing or malformed (non-object) persisted datum yields
exactly the defaults; a partial object is merged over the defaults;
every case is a total computation, so nothing is raised. -/
theorem c5_settings_roundtrip :
    (∀ s : Settings, loadSettingsObj (persistedAfterSave s) = settingsObj s)
    ∧ loadSettingsObj none = defaultsObj
    ∧ (∀ v : JValue, isPlainObj v = false → loadSettingsObj (some v) = defaultsObj)
    ∧ (∀ b : Bool, loadSettingsObj (some (.obj [("liveUpdate", .bool b)]))
        = [("detailed", .bool true), ("liveUpdate", .bool b), ("showTooltip", .bool true)]) := by
  refine ⟨fun s => rfl, rfl, ?_, fun b => rfl⟩
  intro v hv
  cases v <;> first | rfl | simp [isPlainObj] at hv

/-- Witness for C5: round-trip of a concrete non-default value and
default fallback on a string-typed persisted datum. -/
theorem c5_settings_roundtrip_witness :
    loadSettingsObj (persistedAfterSave ⟨false, true, false⟩)
      = settingsObj ⟨false, true, false⟩
    ∧ isPlainObj (.str "junk") = false
    ∧ loadSettingsObj (some (.str "junk")) = defaultsObj :=
  ⟨c5_settings_roundtrip.1 ⟨false, true, false⟩, rfl,
   c5_settings_roundtrip.2.2.1 (.str "junk") rfl⟩

end RelTs
